import Mathlib

/-
  Verification of the dn42-globalping connection hub and task pipeline.

  The repository contains two parallel implementations of the server and of
  the probe agent:
    * the "hub variant": internal/hub/hub.go + internal/handler (probe and
      client websocket handlers) + the ProbeClient probe agent;
    * the "backend variant": backend/main.go (Server with probeReader and
      webReader) + the standalone Probe agent.
  Both are embedded below, in namespaces HubM / ProbeC (hub variant) and
  BackendM / ProbeS (backend variant).  Go maps are modelled as association
  lists with overwrite semantics, Go buffered channels of capacity 256 as
  lists with an explicit capacity check, and uuid.New() as a fresh counter
  (the uuid contract: generated identifiers are never repeated).
-/

/-- Go map indexing `v, ok := m[k]` on a map modelled as an association list:
returns the first binding of the key, if any. -/
def mget {α : Type} (k : Nat) : List (Nat × α) → Option α
  | [] => none
  | (k', v) :: rest => if k' = k then some v else mget k rest

/-- Go `delete(m, k)`: remove every binding of the key. -/
def mdel {α : Type} (k : Nat) : List (Nat × α) → List (Nat × α)
  | [] => []
  | (k', v) :: rest => if k' = k then mdel k rest else (k', v) :: mdel k rest

/-- Go map assignment `m[k] = v`: overwrite-or-insert. -/
def mput {α : Type} (k : Nat) (v : α) (m : List (Nat × α)) : List (Nat × α) :=
  (k, v) :: mdel k m

/-- The keys of a map modelled as an association list. -/
def mkeys {α : Type} (m : List (Nat × α)) : List Nat :=
  m.map Prod.fst

/-- Non-blocking enqueue on a buffered channel of capacity 256, modelling the
Go idiom `select ... case ch <- msg ... default: log` used throughout
internal/hub/hub.go: if the buffer is full the message is dropped and the
buffer is unchanged. -/
def trySend {α : Type} (q : List α) (m : α) : List α :=
  if q.length < 256 then q ++ [m] else q

/-- Plain blocking Go channel send `ch <- msg` on a buffer of capacity 256,
as used by backend/main.go when forwarding results, completions and task
assignments.  The send completes (returning the new buffer) only when there
is room; on a full buffer it cannot complete and the sending goroutine
blocks, which we model as `none`. -/
def chanSend {α : Type} (q : List α) (m : α) : Option (List α) :=
  if q.length < 256 then some (q ++ [m]) else none

theorem mget_mput_self {α : Type} (k : Nat) (v : α) (m : List (Nat × α)) :
    mget k (mput k v m) = some v := by
  simp [mput, mget]

theorem mget_mdel_ne {α : Type} (k k' : Nat) (m : List (Nat × α)) (h : k ≠ k') :
    mget k (mdel k' m) = mget k m := by
  have hk'k : ¬ k' = k := fun hc => h hc.symm
  induction m with
  | nil => simp [mdel]
  | cons x rest ih =>
    by_cases hx : x.1 = k'
    · have hxk : ¬ x.1 = k := by rw [hx]; exact hk'k
      simp [mdel, mget, hx, hxk, hk'k, ih]
    · by_cases hk : x.1 = k
      · simp [mdel, mget, hx, hk, hk'k, h, ih]
      · simp [mdel, mget, hx, hk, ih]

theorem mget_mdel_self {α : Type} (k : Nat) (m : List (Nat × α)) :
    mget k (mdel k m) = none := by
  induction m with
  | nil => simp [mdel, mget]
  | cons x rest ih =>
    by_cases hx : x.1 = k
    · simp [mdel, hx, ih]
    · simp [mdel, mget, hx, ih]

theorem mget_mput_ne {α : Type} (k k' : Nat) (v : α) (m : List (Nat × α)) (h : k ≠ k') :
    mget k (mput k' v m) = mget k m := by
  have hk'k : ¬ k' = k := fun hc => h hc.symm
  rw [mput]
  show (if k' = k then some v else mget k (mdel k' m)) = mget k m
  rw [if_neg hk'k]
  exact mget_mdel_ne k k' m h

theorem mem_mkeys_mdel {α : Type} (i k : Nat) (m : List (Nat × α)) :
    i ∈ mkeys (mdel k m) ↔ i ∈ mkeys m ∧ i ≠ k := by
  induction m with
  | nil => simp [mdel, mkeys]
  | cons x rest ih =>
    by_cases hx : x.1 = k
    · constructor
      · intro hm
        rcases (ih.mp (by simpa [mdel, hx] using hm)) with ⟨h1, h2⟩
        exact ⟨by simp [mkeys]; right; simpa [mkeys] using h1, h2⟩
      · intro hm
        rcases hm with ⟨h1, h2⟩
        simp [mkeys] at h1
        rcases h1 with h1 | h1
        · exact absurd (h1.trans hx) h2
        · simpa [mdel, hx] using ih.mpr ⟨by simpa [mkeys] using h1, h2⟩
    · constructor
      · intro hm
        simp [mdel, hx, mkeys] at hm
        rcases hm with hm | hm
        · constructor
          · simp [mkeys, hm]
          · intro hc; exact hx (hm ▸ hc)
        · rcases (ih.mp (by simpa [mkeys] using hm)) with ⟨h1, h2⟩
          exact ⟨by simp [mkeys]; right; simpa [mkeys] using h1, h2⟩
      · intro hm
        rcases hm with ⟨h1, h2⟩
        simp [mkeys] at h1
        rcases h1 with h1 | h1
        · simp [mdel, hx, mkeys, h1]
        · have := ih.mpr ⟨by simpa [mkeys] using h1, h2⟩
          simp [mdel, hx, mkeys]
          right
          simpa [mkeys] using this

theorem nodup_mkeys_mdel {α : Type} (k : Nat) (m : List (Nat × α))
    (h : (mkeys m).Nodup) : (mkeys (mdel k m)).Nodup := by
  induction m with
  | nil => simp [mdel, mkeys]
  | cons x rest ih =>
    rw [mkeys, List.map_cons, List.nodup_cons] at h
    by_cases hx : x.1 = k
    · simpa [mdel, hx] using ih h.2
    · have hrest := ih h.2
      have hnot : x.1 ∉ mkeys (mdel k rest) := fun hmem =>
        h.1 (by simpa [mkeys] using ((mem_mkeys_mdel x.1 k rest).mp hmem).1)
      have hstep : mdel k (x :: rest) = x :: mdel k rest := by
        cases x with
        | mk a b => simp [mdel, hx]
      rw [hstep, mkeys, List.map_cons, List.nodup_cons]
      exact ⟨fun hm => hnot (by simpa [mkeys] using hm), by simpa [mkeys] using hrest⟩

theorem nodup_mkeys_mput {α : Type} (k : Nat) (v : α) (m : List (Nat × α))
    (h : (mkeys m).Nodup) : (mkeys (mput k v m)).Nodup := by
  refine List.Nodup.cons ?_ (nodup_mkeys_mdel k m h)
  intro hmem
  have := (mem_mkeys_mdel k k m).mp (by simpa [mkeys] using hmem)
  exact this.2 rfl

theorem mem_mkeys_mput {α : Type} (i k : Nat) (v : α) (m : List (Nat × α)) :
    i ∈ mkeys (mput k v m) ↔ i = k ∨ (i ∈ mkeys m ∧ i ≠ k) := by
  constructor
  · intro hm
    simp [mput, mkeys] at hm
    rcases hm with hm | hm
    · exact Or.inl hm
    · exact Or.inr ((mem_mkeys_mdel i k m).mp (by simpa [mkeys] using hm))
  · intro hm
    rcases hm with hm | hm
    · simp [mput, mkeys, hm]
    · simp [mput, mkeys]
      right
      simpa [mkeys] using (mem_mkeys_mdel i k m).mpr hm

namespace HubM

/-- ProbeInfo from internal/model/model.go (latitude and longitude are
floating-point presentation data not touched by any routing logic and are
omitted; LastSeen wall-clock time is an abstract Nat). -/
structure ProbeInfo where
  id : Nat
  name : String
  location : String
  pstatus : String
  lastSeen : Nat
  deriving DecidableEq, Repr

/-- TaskCreatePayload from internal/model/model.go; the Type field is named
ptype here.  Probe identities are abstract Nat. -/
structure TaskCreatePayload where
  probeIDs : List Nat
  ptype : String
  target : String
  options : String
  deriving DecidableEq, Repr

/-- TaskResultPayload from internal/model/model.go. -/
structure TaskResultPayload where
  taskID : Nat
  probeID : Nat
  line : String
  isEnd : Bool
  error : String
  deriving DecidableEq, Repr

/-- The wire messages produced by the hub (model.go Message with the payload
shapes actually used by hub.go), as a discriminated union. -/
inductive Msg where
  | task (taskID : Nat) (ptype target options : String)
  | taskStream (taskID probeID : Nat) (probeName line : String) (isEnd : Bool) (error : String)
  | probeList (probes : List ProbeInfo)
  | errorMsg (message : String)
  deriving DecidableEq, Repr

/-- ProbeConnection from hub.go: SendCh is the buffered channel (cap 256)
modelled by its queued contents. -/
structure ProbeConnection where
  id : Nat
  info : ProbeInfo
  sendCh : List Msg
  deriving DecidableEq, Repr

/-- ClientConnection from hub.go. -/
structure ClientConnection where
  id : Nat
  sendCh : List Msg
  deriving DecidableEq, Repr

/-- Hub from hub.go.  nextId models the uuid generator: each generated
identity is the current counter value, which is then incremented, so
generated identities are pairwise distinct (the uuid contract). -/
structure Hub where
  probes : List (Nat × ProbeConnection)
  clients : List (Nat × ClientConnection)
  taskToClient : List (Nat × Nat)
  taskToProbes : List (Nat × List Nat)
  nextId : Nat
  deriving DecidableEq, Repr

/-- The probe list snapshot taken by broadcastProbeList and GetProbeList
(hub.go lines 124-128 and 133-136). -/
def probeInfos (h : Hub) : List ProbeInfo :=
  h.probes.map (fun p => p.2.info)

/-- broadcastProbeList (hub.go lines 132-154): non-blocking enqueue of the
current probe list on every client channel; a full channel drops the message
for that client only. -/
def broadcastProbeList (h : Hub) : Hub :=
  let msg := Msg.probeList (probeInfos h)
  { h with clients := h.clients.map (fun c => (c.1, { c.2 with sendCh := trySend c.2.sendCh msg })) }

/-- RegisterProbe (hub.go lines 51-75): generate a fresh identity, insert the
connection with an empty 256-buffer channel and status online, broadcast the
updated probe list, return the new connection id. -/
def RegisterProbe (h : Hub) (name location : String) (now : Nat) : Hub × Nat :=
  let probeID := h.nextId
  let probe : ProbeConnection :=
    { id := probeID
      info := { id := probeID, name := name, location := location, pstatus := "online", lastSeen := now }
      sendCh := [] }
  let h' := { h with probes := mput probeID probe h.probes, nextId := h.nextId + 1 }
  (broadcastProbeList h', probeID)

/-- UnregisterProbe (hub.go lines 78-88): remove the probe if present and
broadcast the updated list; absent ids are a no-op. -/
def UnregisterProbe (h : Hub) (probeID : Nat) : Hub :=
  match mget probeID h.probes with
  | some _ => broadcastProbeList { h with probes := mdel probeID h.probes }
  | none => h

/-- GetProbeList (hub.go lines 120-129): point-in-time snapshot of the
registered probe records. -/
def GetProbeList (h : Hub) : List ProbeInfo :=
  probeInfos h

/-- The task assignment message built in CreateTask (hub.go lines 171-179). -/
def taskMsg (taskID : Nat) (p : TaskCreatePayload) : Msg :=
  Msg.task taskID p.ptype p.target p.options

/-- The dispatch loop of CreateTask (hub.go lines 169-188): for each target
identity in order, if it is currently registered, non-blocking enqueue of the
assignment on its channel; unregistered identities are skipped silently. -/
def sendToProbes (m : Msg) : List (Nat × ProbeConnection) → List Nat → List (Nat × ProbeConnection)
  | probes, [] => probes
  | probes, pid :: rest =>
    match mget pid probes with
    | some pc => sendToProbes m (mput pid { pc with sendCh := trySend pc.sendCh m } probes) rest
    | none => sendToProbes m probes rest

/-- CreateTask (hub.go lines 157-191): generate a fresh task id, record the
owning client and the FULL requested probe id list in taskToProbes, then
dispatch to those targets that are registered. -/
def CreateTask (h : Hub) (clientID : Nat) (p : TaskCreatePayload) : Hub × Nat :=
  let taskID := h.nextId
  let h1 := { h with
    taskToClient := mput taskID clientID h.taskToClient
    taskToProbes := mput taskID p.probeIDs h.taskToProbes
    nextId := h.nextId + 1 }
  ({ h1 with probes := sendToProbes (taskMsg taskID p) h1.probes p.probeIDs }, taskID)

/-- The probe display name lookup in ForwardTaskResult (hub.go lines 218-223). -/
def probeNameOf (h : Hub) (pid : Nat) : String :=
  match mget pid h.probes with
  | some pc => pc.info.name
  | none => ""

/-- ForwardTaskResult (hub.go lines 194-245): look up the owning client of
the task (dropping the result if the task id is unknown), look up the client
connection, resolve the probe display name, and non-blocking enqueue a
task_stream message on the client channel.  Note that this function never
modifies taskToProbes or taskToClient. -/
def ForwardTaskResult (h : Hub) (r : TaskResultPayload) : Hub :=
  match mget r.taskID h.taskToClient with
  | none => h
  | some clientID =>
    match mget clientID h.clients with
    | none => h
    | some client =>
      let m := Msg.taskStream r.taskID r.probeID (probeNameOf h r.probeID) r.line r.isEnd r.error
      { h with clients := mput clientID { client with sendCh := trySend client.sendCh m } h.clients }

/-- The probe websocket read loop on a task_result message
(internal/handler, HandleProbeWS lines 104-113): the ProbeID field of the
decoded payload is overwritten with the identity registered for this
connection before the payload is handed to ForwardTaskResult. -/
def handleProbeTaskResult (h : Hub) (sessionProbeID : Nat) (wire : TaskResultPayload) : Hub :=
  ForwardTaskResult h { wire with probeID := sessionProbeID }

end HubM

namespace BackendM

/-- ProbeConnection from backend/main.go.  The map key under which the
server stores the connection is the probe id taken FROM the registration
payload (probeReader, MsgRegisterProbe: pc.ID = info.ID), not a
server-generated identity.  connID identifies the underlying websocket
session so that distinct live sessions can be told apart. -/
structure ProbeConnection where
  connID : Nat
  id : Nat
  name : String
  deriving DecidableEq, Repr

/-- TaskRequest from backend/main.go. -/
structure TaskRequest where
  probeIDs : List Nat
  tool : String
  target : String
  deriving DecidableEq, Repr

/-- Task from backend/main.go: ProbeIDs is a set (map to bool), modelled as
a duplicate-free list; WebConn is identified by the owning web session id. -/
structure Task where
  id : Nat
  webConnID : Nat
  tool : String
  target : String
  probeIDs : List Nat
  deriving DecidableEq, Repr

/-- TaskOutput from backend/main.go. -/
structure TaskOutput where
  taskID : Nat
  probeID : Nat
  line : String
  isError : Bool
  deriving DecidableEq, Repr

/-- Messages that reach a web client through its Send channel, as produced
by probeReader (MsgTaskResult and MsgTaskComplete forwarding). -/
inductive WebEvent where
  | taskOutput (taskID probeID : Nat) (line : String) (isError : Bool)
  | taskComplete (taskID probeID : Nat) (exitCode : Int)
  deriving DecidableEq, Repr

/-- The probe identity carried by a forwarded web event. -/
def eventProbeID : WebEvent → Nat
  | .taskOutput _ p _ _ => p
  | .taskComplete _ p _ => p

/-- Server from backend/main.go (web client sessions are represented only by
their ids inside tasks; deliveries to them are collected as WebEvent lists). -/
structure Server where
  probes : List (Nat × ProbeConnection)
  tasks : List (Nat × Task)
  deriving DecidableEq, Repr

/-- Go set insertion `m[k] = true` on a set modelled as a duplicate-free
list. -/
def setPut (x : Nat) (s : List Nat) : List Nat :=
  if x ∈ s then s else s ++ [x]

/-- Go set removal `delete(m, k)`. -/
def setDel (x : Nat) (s : List Nat) : List Nat :=
  s.filter (fun y => y ≠ x)

/-- probeReader, MsgRegisterProbe (backend/main.go lines 156-171): the
connection is stored in the probe map under the wire-supplied probe id,
overwriting any existing binding of that id. -/
def registerProbe (s : Server) (pc : ProbeConnection) : Server :=
  { s with probes := mput pc.id pc s.probes }

/-- The assignment loop of webReader, MsgExecuteTask (backend/main.go lines
328-345): walk the requested probe ids; each id currently registered is
added to the task probe set and receives one task_assignment send;
unregistered ids are skipped silently.  Returns the final probe set and the
ordered list of ids to which an assignment send was performed. -/
def assignLoop (probes : List (Nat × ProbeConnection)) (acc : List Nat) :
    List Nat → List Nat × List Nat
  | [] => (acc, [])
  | pid :: rest =>
    match mget pid probes with
    | some _ =>
      let r := assignLoop probes (setPut pid acc) rest
      (r.1, pid :: r.2)
    | none => assignLoop probes acc rest

/-- webReader, MsgExecuteTask (backend/main.go lines 312-352): build the
task, dispatch to the registered targets, and retain the task record only
when at least one probe was assigned.  The fresh uuid task id is a
parameter.  Returns the new server state and the list of probe ids that
received an assignment. -/
def executeTask (s : Server) (webConnID taskID : Nat) (req : TaskRequest) :
    Server × List Nat :=
  let r := assignLoop s.probes [] req.probeIDs
  let task : Task :=
    { id := taskID, webConnID := webConnID, tool := req.tool, target := req.target, probeIDs := r.1 }
  (if r.1.length > 0 then { s with tasks := mput taskID task s.tasks } else s, r.2)

/-- probeReader, MsgTaskResult (backend/main.go lines 182-201): the ProbeID
field of the decoded output is overwritten with the id registered for this
connection, then the output is forwarded to the owning web client if the
task is known; unknown task ids produce no delivery. -/
def handleTaskResult (s : Server) (sessionProbeID : Nat) (wire : TaskOutput) :
    Server × List WebEvent :=
  let output := { wire with probeID := sessionProbeID }
  match mget output.taskID s.tasks with
  | none => (s, [])
  | some _ => (s, [WebEvent.taskOutput output.taskID output.probeID output.line output.isError])

/-- probeReader, MsgTaskComplete (backend/main.go lines 203-228): if the
task is known, remove the sending connection registered probe id from the
task probe set, delete the task when the set becomes empty, and forward the
completion (with the overwritten probe id) to the owning web client. -/
def handleTaskComplete (s : Server) (sessionProbeID taskID : Nat) (exitCode : Int) :
    Server × List WebEvent :=
  match mget taskID s.tasks with
  | none => (s, [])
  | some task =>
    let remaining := setDel sessionProbeID task.probeIDs
    let tasks' :=
      if remaining = [] then mdel taskID s.tasks
      else mput taskID { task with probeIDs := remaining } s.tasks
    ({ s with tasks := tasks' }, [WebEvent.taskComplete taskID sessionProbeID exitCode])

end BackendM

/-- A spawned external command: program name, argument list, and the
execution time bound attached at spawn time (in seconds) if any.
timeoutSecs is some t exactly when the process is started through
exec.CommandContext with a context.WithTimeout of t seconds, and none when
it is started through plain exec.Command with no bound. -/
structure CmdSpec where
  prog : String
  args : List String
  timeoutSecs : Option Nat
  deriving DecidableEq, Repr

/-- Process run status of a probe agent process. -/
inductive ProcStatus where
  | connecting
  | running
  | exited
  deriving DecidableEq, Repr

namespace ProbeC

/-- strings.Fields on the Options string, modelled for space-separated
words: split on spaces and drop empty words. -/
def fields (s : String) : List String :=
  (s.splitOn " ").filter (fun w => w ≠ "")

/-- The command construction of ProbeClient.executeTask (probe agent of the
hub variant, lines 222-250): a fixed program per task type, fixed flags plus
caller options plus the target; every branch uses plain exec.Command, so no
timeout is attached.  Unknown task types yield none. -/
def buildCmd (ptype target options : String) : Option CmdSpec :=
  if ptype = "ping" then
    some { prog := "ping", args := ["-c", "10"] ++ fields options ++ [target], timeoutSecs := none }
  else if ptype = "traceroute" then
    some { prog := "traceroute", args := fields options ++ [target], timeoutSecs := none }
  else if ptype = "mtr" then
    some { prog := "mtr", args := ["-r", "-c", "10", "--no-dns"] ++ fields options ++ [target], timeoutSecs := none }
  else none

/-- A TaskResultPayload sent by ProbeClient.sendResult. -/
structure ResultMsg where
  taskID : Nat
  line : String
  isEnd : Bool
  error : String
  deriving DecidableEq, Repr

/-- Environment of one execution: outcomes of the pipe creation, process
start and wait calls (some errText when the call fails), and the lines the
process writes on each stream. -/
structure ExecEnv where
  stdoutPipeErr : Option String
  stderrPipeErr : Option String
  startErr : Option String
  waitErr : Option String
  stdoutLines : List String
  stderrLines : List String
  deriving DecidableEq, Repr

/-- ProbeClient.executeTask (lines 221-295): returns whether the external
process was started, paired with the ordered list of result messages sent
for this task (the two concurrent line readers are linearised stdout first;
the relative order of the two streams is not used by any theorem below).
Each failure before start short-circuits to a single terminal result; after
a start, every line gives one non-terminal result and the wait outcome gives
exactly one terminal result carrying the error text if any. -/
def executeTask (taskID : Nat) (ptype target options : String) (env : ExecEnv) :
    Bool × List ResultMsg :=
  match buildCmd ptype target options with
  | none => (false, [{ taskID := taskID, line := "", isEnd := true, error := "Unknown task type: " ++ ptype }])
  | some _ =>
    match env.stdoutPipeErr with
    | some e => (false, [{ taskID := taskID, line := "", isEnd := true, error := e }])
    | none =>
      match env.stderrPipeErr with
      | some e => (false, [{ taskID := taskID, line := "", isEnd := true, error := e }])
      | none =>
        match env.startErr with
        | some e => (false, [{ taskID := taskID, line := "", isEnd := true, error := e }])
        | none =>
          (true,
            env.stdoutLines.map (fun l => { taskID := taskID, line := l, isEnd := false, error := "" }) ++
            env.stderrLines.map (fun l => { taskID := taskID, line := l, isEnd := false, error := "" }) ++
            [match env.waitErr with
             | some e => { taskID := taskID, line := "", isEnd := true, error := e }
             | none => { taskID := taskID, line := "", isEnd := true, error := "" }])

/-- Number of terminal (isEnd) results in a message list. -/
def terminalCount (ms : List ResultMsg) : Nat :=
  (ms.filter (fun m => m.isEnd)).length

/-- ProbeClient main (probe agent of the hub variant, lines 91-120): a
single connect() attempt; on error, log.Fatal terminates the probe process;
on success the agent runs until a signal arrives.  There is no retry. -/
def mainStatus (connectOk : Bool) : ProcStatus :=
  if connectOk then ProcStatus.running else ProcStatus.exited

end ProbeC

namespace ProbeS

/-- The command construction of Probe.executeTask (standalone probe agent,
lines 501-513): fixed program and flags per tool; every branch starts the
process through exec.CommandContext under context.WithTimeout of 5 minutes
(300 seconds).  Unknown tools yield none. -/
def buildCmd (tool target : String) : Option CmdSpec :=
  if tool = "ping" then
    some { prog := "ping", args := ["-c", "4", target], timeoutSecs := some 300 }
  else if tool = "traceroute" then
    some { prog := "traceroute", args := [target], timeoutSecs := some 300 }
  else if tool = "mtr" then
    some { prog := "mtr", args := ["-r", "-c", "10", target], timeoutSecs := some 300 }
  else none

/-- Outcome of cmd.Wait() in Probe.executeTask: clean exit, an ExitError
carrying the process exit code, or any other error. -/
inductive WaitResult where
  | ok
  | exitErr (code : Int)
  | otherErr
  deriving DecidableEq, Repr

/-- The exit code computation of Probe.executeTask lines 562-569. -/
def exitCodeOf : WaitResult → Int
  | .ok => 0
  | .exitErr c => c
  | .otherErr => 1

/-- A message sent by the standalone probe for a task: sendOutput or
sendComplete. -/
inductive PEvent where
  | output (taskID : Nat) (line : String) (isError : Bool)
  | complete (taskID : Nat) (exitCode : Int)
  deriving DecidableEq, Repr

/-- Environment of one execution of Probe.executeTask: outcome of
exec.LookPath, of the pipe creations and of cmd.Start, the wait outcome, and
the lines the process writes on each stream. -/
structure ExecEnv where
  lookPathErr : Bool
  stdoutPipeErr : Option String
  stderrPipeErr : Option String
  startErr : Option String
  wait : WaitResult
  stdoutLines : List String
  stderrLines : List String
  deriving DecidableEq, Repr

/-- Probe.executeTask (standalone probe agent, lines 492-573): returns
whether the external process was started, paired with the ordered list of
messages sent for this task (stdout lines linearised before stderr lines;
no theorem below depends on the interleaving of the two readers).  Unknown
tool, LookPath failure, pipe failure and start failure each short-circuit to
one failure output line plus exactly one task_complete with a sentinel
nonzero code (127 for a missing tool, 1 otherwise); after a start, the wait
outcome gives exactly one task_complete carrying the process exit code. -/
def executeTask (taskID : Nat) (tool target : String) (env : ExecEnv) :
    Bool × List PEvent :=
  match buildCmd tool target with
  | none => (false, [PEvent.output taskID ("Unknown tool: " ++ tool) true, PEvent.complete taskID 1])
  | some _ =>
    if env.lookPathErr then
      (false, [PEvent.output taskID ("Tool " ++ tool ++ " not found. Please install it.") true,
               PEvent.complete taskID 127])
    else
      match env.stdoutPipeErr with
      | some e => (false, [PEvent.output taskID ("Failed to create stdout pipe: " ++ e) true,
                           PEvent.complete taskID 1])
      | none =>
        match env.stderrPipeErr with
        | some e => (false, [PEvent.output taskID ("Failed to create stderr pipe: " ++ e) true,
                             PEvent.complete taskID 1])
        | none =>
          match env.startErr with
          | some e => (false, [PEvent.output taskID ("Failed to start command: " ++ e) true,
                               PEvent.complete taskID 1])
          | none =>
            (true,
              env.stdoutLines.map (fun l => PEvent.output taskID l false) ++
              env.stderrLines.map (fun l => PEvent.output taskID l true) ++
              [PEvent.complete taskID (exitCodeOf env.wait)])

/-- Number of task_complete (terminal) events in an event list. -/
def completeCount (ms : List PEvent) : Nat :=
  (ms.filter (fun m => match m with | .complete _ _ => true | _ => false)).length

/-- The fixed retry delay of the standalone probe main loop, in seconds
(time.Sleep(5 * time.Second), lines 635 and 641). -/
def retryDelaySecs : Nat := 5

/-- Standalone probe main (lines 631-644): the outer for-loop keeps calling
Connect; a failed attempt sleeps the fixed delay and retries; a successful
attempt enters Run.  Given the outcomes of the successive connect attempts,
the resulting process status: still connecting while every attempt so far
failed, running after a success, and never exited. -/
def mainStatus : List Bool → ProcStatus
  | [] => ProcStatus.connecting
  | true :: _ => ProcStatus.running
  | false :: rest => mainStatus rest

/-- The delays slept between the successive failed connect attempts of the
standalone probe main loop: one fixed retryDelaySecs sleep per failure. -/
def retryDelays : List Bool → List Nat
  | [] => []
  | true :: _ => []
  | false :: rest => retryDelaySecs :: retryDelays rest

end ProbeS

theorem mget_eq_none_iff {α : Type} (k : Nat) (m : List (Nat × α)) :
    mget k m = none ↔ k ∉ mkeys m := by
  induction m with
  | nil => simp [mget, mkeys]
  | cons x rest ih =>
    by_cases hx : x.1 = k
    · simp [mget, mkeys, hx]
    · have hkx : ¬ k = x.1 := fun hc => hx hc.symm
      simp [mget, mkeys, hx, hkx, ih]

theorem mem_mdel {α : Type} (k : Nat) (m : List (Nat × α)) (e : Nat × α)
    (h : e ∈ mdel k m) : e ∈ m := by
  induction m with
  | nil => simp [mdel] at h
  | cons x rest ih =>
    by_cases hx : x.1 = k
    · simp [mdel, hx] at h
      exact List.mem_cons_of_mem x (ih h)
    · have hstep : mdel k (x :: rest) = x :: mdel k rest := by
        cases x with
        | mk a b => simp [mdel, hx]
      rw [hstep] at h
      rcases List.mem_cons.mp h with h | h
      · simp [h]
      · exact List.mem_cons_of_mem x (ih h)

theorem mget_map_val {α β : Type} (f : α → β) (k : Nat) (m : List (Nat × α)) :
    mget k (m.map (fun c => (c.1, f c.2))) = (mget k m).map f := by
  induction m with
  | nil => simp [mget]
  | cons x rest ih =>
    by_cases hx : x.1 = k <;> simp [mget, hx, ih]

theorem filter_ne_of_not_mem (i : Nat) (l : List Nat) (h : i ∉ l) :
    l.filter (fun x => x ≠ i) = l := by
  induction l with
  | nil => rfl
  | cons x rest ih =>
    have hx : x ≠ i := fun hc => h (by simp [hc])
    have hr : i ∉ rest := fun hc => h (by simp [hc])
    simp [List.filter, hx, ih hr]
    exact fun a ha hc => hr (hc ▸ ha)

theorem mem_filter_ne (x i : Nat) (l : List Nat) :
    x ∈ l.filter (fun y => y ≠ i) ↔ x ∈ l ∧ x ≠ i := by
  simp [List.mem_filter]

theorem sendToProbes_not_mem (m : HubM.Msg) (pids : List Nat) :
    ∀ (probes : List (Nat × HubM.ProbeConnection)) (pid : Nat), pid ∉ pids →
      mget pid (HubM.sendToProbes m probes pids) = mget pid probes := by
  induction pids with
  | nil =>
    intro probes pid _
    rfl
  | cons q rest ih =>
    intro probes pid hpid
    have hq : pid ≠ q := fun hc => hpid (by simp [hc])
    have hrest : pid ∉ rest := fun hc => hpid (by simp [hc])
    cases hg : mget q probes with
    | none =>
      rw [show HubM.sendToProbes m probes (q :: rest) = HubM.sendToProbes m probes rest from by
        simp [HubM.sendToProbes, hg]]
      exact ih probes pid hrest
    | some pc =>
      rw [show HubM.sendToProbes m probes (q :: rest) =
          HubM.sendToProbes m (mput q { pc with sendCh := trySend pc.sendCh m } probes) rest from by
        simp [HubM.sendToProbes, hg]]
      rw [ih _ pid hrest]
      exact mget_mput_ne pid q _ probes hq

theorem sendToProbes_none (m : HubM.Msg) (pids : List Nat) :
    ∀ (probes : List (Nat × HubM.ProbeConnection)) (pid : Nat),
      mget pid probes = none →
      mget pid (HubM.sendToProbes m probes pids) = none := by
  induction pids with
  | nil =>
    intro probes pid h
    exact h
  | cons q rest ih =>
    intro probes pid h
    cases hg : mget q probes with
    | none =>
      rw [show HubM.sendToProbes m probes (q :: rest) = HubM.sendToProbes m probes rest from by
        simp [HubM.sendToProbes, hg]]
      exact ih probes pid h
    | some pc =>
      have hq : pid ≠ q := by
        intro hc
        rw [hc, hg] at h
        cases h
      rw [show HubM.sendToProbes m probes (q :: rest) =
          HubM.sendToProbes m (mput q { pc with sendCh := trySend pc.sendCh m } probes) rest from by
        simp [HubM.sendToProbes, hg]]
      exact ih _ pid (by rw [mget_mput_ne pid q _ probes hq]; exact h)

theorem sendToProbes_mem (m : HubM.Msg) (pids : List Nat) :
    ∀ (probes : List (Nat × HubM.ProbeConnection)) (pid : Nat) (pc : HubM.ProbeConnection),
      pids.Nodup → pid ∈ pids → mget pid probes = some pc →
      mget pid (HubM.sendToProbes m probes pids) =
        some { pc with sendCh := trySend pc.sendCh m } := by
  induction pids with
  | nil =>
    intro _ _ _ _ hmem _
    cases hmem
  | cons q rest ih =>
    intro probes pid pc hnd hmem hg
    rcases List.mem_cons.mp hmem with heq | hmemr
    · subst heq
      rw [show HubM.sendToProbes m probes (pid :: rest) =
          HubM.sendToProbes m (mput pid { pc with sendCh := trySend pc.sendCh m } probes) rest from by
        simp [HubM.sendToProbes, hg]]
      rw [sendToProbes_not_mem m rest _ pid (List.nodup_cons.mp hnd).1]
      exact mget_mput_self pid _ probes
    · have hnd' := (List.nodup_cons.mp hnd).2
      by_cases hpq : pid = q
      · exact absurd (hpq ▸ hmemr) (List.nodup_cons.mp hnd).1
      · cases hgq : mget q probes with
        | none =>
          rw [show HubM.sendToProbes m probes (q :: rest) = HubM.sendToProbes m probes rest from by
            simp [HubM.sendToProbes, hgq]]
          exact ih probes pid pc hnd' hmemr hg
        | some pcq =>
          rw [show HubM.sendToProbes m probes (q :: rest) =
              HubM.sendToProbes m (mput q { pcq with sendCh := trySend pcq.sendCh m } probes) rest from by
            simp [HubM.sendToProbes, hgq]]
          exact ih _ pid pc hnd' hmemr (by rw [mget_mput_ne pid q _ probes hpq]; exact hg)

theorem assignLoop_mem_isSome (probes : List (Nat × BackendM.ProbeConnection)) (pids : List Nat) :
    ∀ acc : List Nat, (∀ p ∈ acc, (mget p probes).isSome = true) →
      ∀ p ∈ (BackendM.assignLoop probes acc pids).1, (mget p probes).isSome = true := by
  induction pids with
  | nil =>
    intro acc hacc
    simpa [BackendM.assignLoop] using hacc
  | cons pid rest ih =>
    intro acc hacc
    cases hq : mget pid probes with
    | none =>
      rw [show BackendM.assignLoop probes acc (pid :: rest) = BackendM.assignLoop probes acc rest from by
        simp [BackendM.assignLoop, hq]]
      exact ih acc hacc
    | some pc =>
      rw [show (BackendM.assignLoop probes acc (pid :: rest)).1 =
          (BackendM.assignLoop probes (BackendM.setPut pid acc) rest).1 from by
        simp [BackendM.assignLoop, hq]]
      apply ih
      intro p hp
      unfold BackendM.setPut at hp
      by_cases hmem : pid ∈ acc
      · rw [if_pos hmem] at hp
        exact hacc p hp
      · rw [if_neg hmem] at hp
        rcases List.mem_append.mp hp with hp | hp
        · exact hacc p hp
        · have : p = pid := by simpa using hp
          rw [this, hq]
          rfl

/-- Claim C1, counterexample.  In the hub variant, ForwardTaskResult is the
routine that processes probe results (internal/handler feeds every
task_result message, terminal or not, into it), yet it never touches
taskToProbes or taskToClient: on a concrete hub holding task 5 with
remaining probe set containing exactly probe 1, processing a result from probe 1
with the terminal flag set delivers the stream message to the client but
leaves the remaining set at its old value and leaves the task record in
place, contradicting the claim that the probe is removed and the emptied
task is deleted. -/
theorem c1_hub_forward_keeps_task :
    (HubM.ForwardTaskResult
      { probes := [(1, { id := 1
                         info := { id := 1, name := "p", location := "loc", pstatus := "online", lastSeen := 0 }
                         sendCh := [] })]
        clients := [(2, { id := 2, sendCh := [] })]
        taskToClient := [(5, 2)]
        taskToProbes := [(5, [1])]
        nextId := 6 }
      { taskID := 5, probeID := 1, line := "", isEnd := true, error := "" }).taskToProbes = [(5, [1])] ∧
    (HubM.ForwardTaskResult
      { probes := [(1, { id := 1
                         info := { id := 1, name := "p", location := "loc", pstatus := "online", lastSeen := 0 }
                         sendCh := [] })]
        clients := [(2, { id := 2, sendCh := [] })]
        taskToClient := [(5, 2)]
        taskToProbes := [(5, [1])]
        nextId := 6 }
      { taskID := 5, probeID := 1, line := "", isEnd := true, error := "" }).taskToClient = [(5, 2)] ∧
    (mget 2 (HubM.ForwardTaskResult
      { probes := [(1, { id := 1
                         info := { id := 1, name := "p", location := "loc", pstatus := "online", lastSeen := 0 }
                         sendCh := [] })]
        clients := [(2, { id := 2, sendCh := [] })]
        taskToClient := [(5, 2)]
        taskToProbes := [(5, [1])]
        nextId := 6 }
      { taskID := 5, probeID := 1, line := "", isEnd := true, error := "" }).clients).map
        (fun c => c.sendCh) = some [HubM.Msg.taskStream 5 1 "p" "" true ""] := by
  decide

/-- Claim C1, amended: only the backend variant implements the claimed
cleanup.  There, a task_result message never changes the task map (the
remaining set shrinks only on the terminal task_complete signal), and a
task_complete from the connection registered as probe pid removes exactly
pid from the remaining set of the named task, deletes the task record
exactly when the set thereby becomes empty (so never before every dispatched
probe has reported completion), and leaves every other task untouched.  In
the hub variant, ForwardTaskResult performs no removal and no deletion at
all (see the counterexample). -/
theorem c1_backend_complete_removes_probe
    (s : BackendM.Server) (pid tid : Nat) (code : Int) (t : BackendM.Task)
    (hget : mget tid s.tasks = some t) :
    (∀ o : BackendM.TaskOutput, (BackendM.handleTaskResult s pid o).1.tasks = s.tasks) ∧
    (BackendM.setDel pid t.probeIDs = [] →
      mget tid (BackendM.handleTaskComplete s pid tid code).1.tasks = none) ∧
    (BackendM.setDel pid t.probeIDs ≠ [] →
      mget tid (BackendM.handleTaskComplete s pid tid code).1.tasks =
        some { t with probeIDs := BackendM.setDel pid t.probeIDs }) ∧
    (∀ tid', tid' ≠ tid →
      mget tid' (BackendM.handleTaskComplete s pid tid code).1.tasks = mget tid' s.tasks) := by
  refine ⟨?_, ?_, ?_, ?_⟩
  · intro o
    unfold BackendM.handleTaskResult
    cases hg : mget o.taskID s.tasks <;> simp [hg]
  · intro hrem
    unfold BackendM.handleTaskComplete
    rw [hget]
    simp only [hrem, if_pos]
    exact mget_mdel_self tid s.tasks
  · intro hrem
    unfold BackendM.handleTaskComplete
    rw [hget]
    simp only [hrem, if_neg, ite_false]
    exact mget_mput_self tid _ s.tasks
  · intro tid' hne
    unfold BackendM.handleTaskComplete
    cases hg : mget tid s.tasks with
    | none => rfl
    | some task =>
      by_cases hrem : BackendM.setDel pid task.probeIDs = []
      · simp only [hrem, if_pos]
        exact mget_mdel_ne tid' tid s.tasks hne
      · simp only [hrem, ite_false]
        exact mget_mput_ne tid' tid _ s.tasks hne

/-- Witness for the amended claim C1: on a concrete backend server holding
task 9 whose remaining set is exactly probe 4, a task_complete from the
connection registered as probe 4 deletes the task record, and task_result
messages leave the task map unchanged. -/
theorem c1_backend_complete_removes_probe_witness :
    mget 9 (BackendM.handleTaskComplete
      { probes := []
        tasks := [(9, { id := 9, webConnID := 0, tool := "ping", target := "x", probeIDs := [4] })] }
      4 9 0).1.tasks = none ∧
    (BackendM.handleTaskResult
      { probes := []
        tasks := [(9, { id := 9, webConnID := 0, tool := "ping", target := "x", probeIDs := [4] })] }
      4 { taskID := 9, probeID := 4, line := "60 bytes", isError := false }).1.tasks =
      [(9, { id := 9, webConnID := 0, tool := "ping", target := "x", probeIDs := [4] })] :=
  ⟨(c1_backend_complete_removes_probe
      { probes := []
        tasks := [(9, { id := 9, webConnID := 0, tool := "ping", target := "x", probeIDs := [4] })] }
      4 9 0 { id := 9, webConnID := 0, tool := "ping", target := "x", probeIDs := [4] }
      (by decide)).2.1 (by decide),
   (c1_backend_complete_removes_probe
      { probes := []
        tasks := [(9, { id := 9, webConnID := 0, tool := "ping", target := "x", probeIDs := [4] })] }
      4 9 0 { id := 9, webConnID := 0, tool := "ping", target := "x", probeIDs := [4] }
      (by decide)).1 { taskID := 9, probeID := 4, line := "60 bytes", isError := false }⟩

/-- Claim C2, counterexample.  In the hub variant, CreateTask records the
FULL requested probe id list in taskToProbes and always retains the task
record: on an empty hub (no probe online), creating a task targeting probe 7
stores the record mapping the new task id 0 to the set containing the
offline, never-registered identity 7. -/
theorem c2_hub_retains_task_with_no_online_probe :
    mget 0 ((HubM.CreateTask
      { probes := [], clients := [], taskToClient := [], taskToProbes := [], nextId := 0 } 3
      { probeIDs := [7], ptype := "ping", target := "8.8.8.8", options := "" }).1).taskToProbes =
      some [7] ∧
    mget 7 ({ probes := [], clients := [], taskToClient := [], taskToProbes := [], nextId := 0 } :
      HubM.Hub).probes = none := by
  decide

/-- Claim C2, amended: only the backend variant satisfies the claim.  There,
every probe id recorded in the task probe set was registered at dispatch
time, a request for which no target is registered leaves the server
unchanged (no task record retained), and otherwise the stored record carries
exactly the online targets.  In the hub variant, CreateTask stores the raw
requested list (offline ids included) and retains the record even when zero
targets are online (see the counterexample). -/
theorem c2_backend_probe_set_online_subset
    (s : BackendM.Server) (wc tid : Nat) (req : BackendM.TaskRequest) :
    (∀ p ∈ (BackendM.assignLoop s.probes [] req.probeIDs).1, (mget p s.probes).isSome = true) ∧
    ((BackendM.assignLoop s.probes [] req.probeIDs).1 = [] →
      (BackendM.executeTask s wc tid req).1 = s) ∧
    ((BackendM.assignLoop s.probes [] req.probeIDs).1 ≠ [] →
      mget tid (BackendM.executeTask s wc tid req).1.tasks =
        some { id := tid, webConnID := wc, tool := req.tool, target := req.target,
               probeIDs := (BackendM.assignLoop s.probes [] req.probeIDs).1 }) := by
  refine ⟨?_, ?_, ?_⟩
  · exact assignLoop_mem_isSome s.probes req.probeIDs [] (by intro p hp; cases hp)
  · intro hempty
    unfold BackendM.executeTask
    simp [hempty]
  · intro hne
    unfold BackendM.executeTask
    have hlen : 0 < (BackendM.assignLoop s.probes [] req.probeIDs).1.length :=
      List.length_pos.mpr hne
    simp only [hlen, if_pos]
    exact mget_mput_self tid _ s.tasks

/-- Witness for the amended claim C2: a concrete backend server with probe 4
registered, a request targeting probes 4 and 8 of which only 4 is online:
probe 4 is in the recorded set and was online, and the stored task record is
exactly the online subset. -/
theorem c2_backend_probe_set_online_subset_witness :
    (mget 4 ({ probes := [(4, { connID := 1, id := 4, name := "p4" })], tasks := [] } :
        BackendM.Server).probes).isSome = true ∧
    mget 7 (BackendM.executeTask
      { probes := [(4, { connID := 1, id := 4, name := "p4" })], tasks := [] }
      2 7 { probeIDs := [4, 8], tool := "ping", target := "x" }).1.tasks =
      some { id := 7, webConnID := 2, tool := "ping", target := "x", probeIDs := [4] } :=
  ⟨(c2_backend_probe_set_online_subset
      { probes := [(4, { connID := 1, id := 4, name := "p4" })], tasks := [] }
      2 7 { probeIDs := [4, 8], tool := "ping", target := "x" }).1 4 (by decide),
   by
    have := (c2_backend_probe_set_online_subset
      { probes := [(4, { connID := 1, id := 4, name := "p4" })], tasks := [] }
      2 7 { probeIDs := [4, 8], tool := "ping", target := "x" }).2.2 (by decide)
    simpa using this⟩

/-- Claim C3, counterexample.  The ProbeClient agent (hub variant) accepts a
concrete ping assignment — buildCmd resolves it and, with every external
call succeeding, executeTask starts the process — yet the spawned command
carries no execution timeout at all: ProbeClient.executeTask uses plain
exec.Command and an unbounded cmd.Wait(), so no fixed ceiling exists and the
process is never timeout-killed. -/
theorem c3_probeclient_no_timeout :
    (ProbeC.buildCmd "ping" "8.8.8.8" "").map (fun c => c.timeoutSecs) = some none ∧
    (ProbeC.executeTask 1 "ping" "8.8.8.8" ""
      { stdoutPipeErr := none, stderrPipeErr := none, startErr := none, waitErr := none,
        stdoutLines := [], stderrLines := [] }).1 = true := by
  decide

/-- Claim C3, amended: only the standalone Probe agent (backend variant)
bounds execution.  Every assignment it accepts resolves to a command spawned
through exec.CommandContext under a context.WithTimeout of exactly 5 minutes
(300 seconds), after which the process is killed; the ProbeClient agent
spawns with no timeout (see the counterexample). -/
theorem c3_standalone_timeout_bound (tool target : String) (c : CmdSpec)
    (h : ProbeS.buildCmd tool target = some c) : c.timeoutSecs = some 300 := by
  unfold ProbeS.buildCmd at h
  split_ifs at h <;> simp_all <;> subst h <;> rfl

/-- Witness for the amended claim C3: the concrete ping assignment resolves
to a command bounded by the 300-second ceiling. -/
theorem c3_standalone_timeout_bound_witness :
    ProbeS.buildCmd "ping" "10.0.0.1" =
      some { prog := "ping", args := ["-c", "4", "10.0.0.1"], timeoutSecs := some 300 } ∧
    ({ prog := "ping", args := ["-c", "4", "10.0.0.1"], timeoutSecs := some 300 } :
      CmdSpec).timeoutSecs = some 300 :=
  ⟨by decide, c3_standalone_timeout_bound "ping" "10.0.0.1" _ (by decide)⟩

/-- Claim C4, counterexample.  The ProbeClient agent (hub variant) calls
connect() exactly once from main and passes any error to log.Fatal: on a
failed dial (or failed registration send or acknowledgement read, all of
which surface as a connect() error) the probe process exits immediately —
it does not retry at all, contradicting the claim that the process never
terminates on connect failure. -/
theorem c4_probeclient_fatal_on_connect_failure :
    ProbeC.mainStatus false = ProcStatus.exited := by
  decide

/-- Claim C4, amended: only the standalone Probe agent (backend variant)
retries.  Its outer for-loop survives any number n of consecutive connect
failures — after them it is still connecting, never exited — sleeping the
fixed flat delay of 5 seconds after each failure, with no maximum retry
count; the ProbeClient agent instead terminates on the first connect
failure (see the counterexample). -/
theorem c4_standalone_retries_forever (n : Nat) :
    ProbeS.mainStatus (List.replicate n false) = ProcStatus.connecting ∧
    ProbeS.retryDelays (List.replicate n false) = List.replicate n 5 := by
  induction n with
  | zero => exact ⟨rfl, rfl⟩
  | succ k ih =>
    rw [List.replicate_succ]
    exact ⟨ih.1, by rw [ProbeS.retryDelays, ih.2, ProbeS.retryDelaySecs, List.replicate_succ]⟩

/-- Claim C6, counterexample.  In the backend variant the forwarding of a
task result to the web client (probeReader, MsgTaskResult: a plain
`task.WebConn.Send <- msg`) is a blocking channel send: on a queue already
holding 256 pending events the send cannot complete — the reader goroutine
blocks instead of dropping the message — contradicting the claim that every
enqueue onto a session queue is non-blocking drop-on-full. -/
theorem c6_backend_blocking_send_on_full :
    chanSend (List.replicate 256 (BackendM.WebEvent.taskOutput 1 2 "64 bytes from peer" false))
      (BackendM.WebEvent.taskOutput 1 2 "next line" false) = none := by
  unfold chanSend
  rw [List.length_replicate, if_neg (Nat.lt_irrefl 256)]

/-- Claim C6, amended: the claimed behaviour holds for every enqueue the hub
variant performs (broadcastProbeList, CreateTask assignment dispatch,
ForwardTaskResult and SendToClient all go through the same select-default
non-blocking enqueue): on a full 256-entry queue the new message is dropped
and the queue keeps its entries in their original order, with no blocking
and no error returned; below capacity the message is appended at the tail
(FIFO).  Moreover a broadcast touches each client session independently, so
a drop affects only the full session.  The backend variant instead performs
blocking sends (see the counterexample). -/
theorem mget_broadcast_clients (msg : HubM.Msg) (l : List (Nat × HubM.ClientConnection)) (cid : Nat) :
    mget cid (l.map (fun c => (c.1, HubM.ClientConnection.mk c.2.id (trySend c.2.sendCh msg)))) =
      (mget cid l).map (fun c => HubM.ClientConnection.mk c.id (trySend c.sendCh msg)) := by
  induction l with
  | nil => rfl
  | cons x rest ih =>
    by_cases hx : x.1 = cid <;> simp [mget, hx, ih]

theorem broadcastProbeList_clients (h : HubM.Hub) :
    (HubM.broadcastProbeList h).clients =
      h.clients.map (fun e => (e.1,
        HubM.ClientConnection.mk e.2.id
          (trySend e.2.sendCh (HubM.Msg.probeList (HubM.probeInfos h))))) := rfl

theorem c6_hub_drop_on_full (q : List HubM.Msg) (m : HubM.Msg) (h : HubM.Hub)
    (cid : Nat) (c : HubM.ClientConnection) :
    (q.length = 256 → trySend q m = q) ∧
    (q.length < 256 → trySend q m = q ++ [m]) ∧
    (mget cid h.clients = some c →
      mget cid (HubM.broadcastProbeList h).clients =
        some { c with sendCh := trySend c.sendCh (HubM.Msg.probeList (HubM.probeInfos h)) }) := by
  refine ⟨?_, ?_, ?_⟩
  · intro hfull
    unfold trySend
    rw [if_neg (by rw [hfull]; exact Nat.lt_irrefl 256)]
  · intro hroom
    unfold trySend
    rw [if_pos hroom]
  · intro hc
    rw [broadcastProbeList_clients, mget_broadcast_clients, hc]
    rfl

/-- Witness for the amended claim C6: a concrete full queue keeps its 256
entries and drops the newcomer; a concrete empty queue appends; a concrete
broadcast updates the one registered client queue in place. -/
theorem c6_hub_drop_on_full_witness :
    trySend (List.replicate 256 (HubM.Msg.errorMsg "old")) (HubM.Msg.errorMsg "new") =
      List.replicate 256 (HubM.Msg.errorMsg "old") ∧
    trySend ([] : List HubM.Msg) (HubM.Msg.errorMsg "new") = [HubM.Msg.errorMsg "new"] ∧
    mget 2 (HubM.broadcastProbeList
      { probes := [], clients := [(2, { id := 2, sendCh := [] })],
        taskToClient := [], taskToProbes := [], nextId := 3 }).clients =
      some { id := 2, sendCh := [HubM.Msg.probeList []] } :=
  ⟨(c6_hub_drop_on_full (List.replicate 256 (HubM.Msg.errorMsg "old")) (HubM.Msg.errorMsg "new")
      { probes := [], clients := [], taskToClient := [], taskToProbes := [], nextId := 0 }
      0 { id := 0, sendCh := [] }).1 (by rw [List.length_replicate]),
   (c6_hub_drop_on_full [] (HubM.Msg.errorMsg "new")
      { probes := [], clients := [], taskToClient := [], taskToProbes := [], nextId := 0 }
      0 { id := 0, sendCh := [] }).2.1 (by norm_num),
   (c6_hub_drop_on_full [] (HubM.Msg.errorMsg "new")
      { probes := [], clients := [(2, { id := 2, sendCh := [] })],
        taskToClient := [], taskToProbes := [], nextId := 3 }
      2 { id := 2, sendCh := [] }).2.2 (by decide)⟩

/-- Claim C9: forwarding a result whose task id is unknown to the router is
harmless in both variants — the total Lean functions below embed the Go
code, which only performs checked map lookups on this path, so no panic is
possible — the hub is returned unchanged (no client queue receives
anything) and the backend forwards no web event and keeps its state. -/
theorem c9_unknown_task_dropped
    (h : HubM.Hub) (r : HubM.TaskResultPayload)
    (hno : mget r.taskID h.taskToClient = none)
    (s : BackendM.Server) (pid : Nat) (o : BackendM.TaskOutput)
    (hno2 : mget o.taskID s.tasks = none) :
    HubM.ForwardTaskResult h r = h ∧ BackendM.handleTaskResult s pid o = (s, []) := by
  constructor
  · unfold HubM.ForwardTaskResult
    rw [hno]
  · unfold BackendM.handleTaskResult
    simp [hno2]

/-- Witness for claim C9: a concrete hub and backend server that know no
task at all drop a result for task 5 without any delivery. -/
theorem c9_unknown_task_dropped_witness :
    HubM.ForwardTaskResult
      { probes := [], clients := [(2, { id := 2, sendCh := [] })],
        taskToClient := [], taskToProbes := [], nextId := 3 }
      { taskID := 5, probeID := 1, line := "lost", isEnd := false, error := "" } =
      { probes := [], clients := [(2, { id := 2, sendCh := [] })],
        taskToClient := [], taskToProbes := [], nextId := 3 } ∧
    BackendM.handleTaskResult { probes := [], tasks := [] } 1
      { taskID := 5, probeID := 1, line := "lost", isError := false } =
      ({ probes := [], tasks := [] }, []) :=
  c9_unknown_task_dropped
    { probes := [], clients := [(2, { id := 2, sendCh := [] })],
      taskToClient := [], taskToProbes := [], nextId := 3 }
    { taskID := 5, probeID := 1, line := "lost", isEnd := false, error := "" }
    (by decide)
    { probes := [], tasks := [] } 1
    { taskID := 5, probeID := 1, line := "lost", isError := false }
    (by decide)

/-- Claim C10: in both variants the server overwrites the probe identity
field of an incoming task result with the identity registered for the
connection the message arrived on, before forwarding.  Consequently (i) the
handling of a result is entirely independent of the probe identity claimed
in the wire payload (spoofing the field changes nothing), and (ii) every
event forwarded to the client carries the sending connection registered
identity: in the hub variant the stream message enqueued for the owning
client names sessionProbeID (and resolves the display name from it), and in
the backend variant every forwarded web event carries sessionProbeID. -/
theorem c10_probe_identity_overwrite
    (h : HubM.Hub) (sid : Nat) (w : HubM.TaskResultPayload) (x : Nat)
    (s : BackendM.Server) (w2 : BackendM.TaskOutput) (y : Nat)
    (cid : Nat) (c : HubM.ClientConnection)
    (htask : mget w.taskID h.taskToClient = some cid)
    (hcl : mget cid h.clients = some c) :
    HubM.handleProbeTaskResult h sid { w with probeID := x } =
      HubM.handleProbeTaskResult h sid w ∧
    BackendM.handleTaskResult s sid { w2 with probeID := y } =
      BackendM.handleTaskResult s sid w2 ∧
    (∀ ev ∈ (BackendM.handleTaskResult s sid w2).2, BackendM.eventProbeID ev = sid) ∧
    mget cid (HubM.handleProbeTaskResult h sid w).clients =
      some { c with sendCh := (trySend c.sendCh
        (HubM.Msg.taskStream w.taskID sid (HubM.probeNameOf h sid) w.line w.isEnd w.error)) } := by
  refine ⟨rfl, rfl, ?_, ?_⟩
  · intro ev hev
    unfold BackendM.handleTaskResult at hev
    cases hg : mget w2.taskID s.tasks with
    | none => simp [hg] at hev
    | some t =>
      simp [hg] at hev
      rw [hev]
      rfl
  · simp only [HubM.handleProbeTaskResult, HubM.ForwardTaskResult, htask, hcl]
    exact mget_mput_self cid _ h.clients

/-- Witness for claim C10: on a concrete hub owning task 5 for client 2, a
result arriving on the connection registered as probe 1 but claiming probe
identity 9 in its payload is delivered as coming from probe 1, identically
to an honest payload; the concrete backend forwards the overwritten
identity as well. -/
theorem c10_probe_identity_overwrite_witness :
    HubM.handleProbeTaskResult
      { probes := [(1, { id := 1
                         info := { id := 1, name := "p", location := "loc", pstatus := "online", lastSeen := 0 }
                         sendCh := [] })]
        clients := [(2, { id := 2, sendCh := [] })]
        taskToClient := [(5, 2)]
        taskToProbes := [(5, [1])]
        nextId := 6 } 1
      { taskID := 5, probeID := 9, line := "l", isEnd := false, error := "" } =
    HubM.handleProbeTaskResult
      { probes := [(1, { id := 1
                         info := { id := 1, name := "p", location := "loc", pstatus := "online", lastSeen := 0 }
                         sendCh := [] })]
        clients := [(2, { id := 2, sendCh := [] })]
        taskToClient := [(5, 2)]
        taskToProbes := [(5, [1])]
        nextId := 6 } 1
      { taskID := 5, probeID := 1, line := "l", isEnd := false, error := "" } ∧
    mget 2 (HubM.handleProbeTaskResult
      { probes := [(1, { id := 1
                         info := { id := 1, name := "p", location := "loc", pstatus := "online", lastSeen := 0 }
                         sendCh := [] })]
        clients := [(2, { id := 2, sendCh := [] })]
        taskToClient := [(5, 2)]
        taskToProbes := [(5, [1])]
        nextId := 6 } 1
      { taskID := 5, probeID := 1, line := "l", isEnd := false, error := "" }).clients =
      some { id := 2, sendCh := [HubM.Msg.taskStream 5 1 "p" "l" false ""] } :=
  ⟨c10_probe_identity_overwrite
      { probes := [(1, { id := 1
                         info := { id := 1, name := "p", location := "loc", pstatus := "online", lastSeen := 0 }
                         sendCh := [] })]
        clients := [(2, { id := 2, sendCh := [] })]
        taskToClient := [(5, 2)]
        taskToProbes := [(5, [1])]
        nextId := 6 } 1
      { taskID := 5, probeID := 1, line := "l", isEnd := false, error := "" } 9
      { probes := [], tasks := [] }
      { taskID := 5, probeID := 1, line := "l", isError := false } 9
      2 { id := 2, sendCh := [] } (by decide) (by decide) |>.1,
   c10_probe_identity_overwrite
      { probes := [(1, { id := 1
                         info := { id := 1, name := "p", location := "loc", pstatus := "online", lastSeen := 0 }
                         sendCh := [] })]
        clients := [(2, { id := 2, sendCh := [] })]
        taskToClient := [(5, 2)]
        taskToProbes := [(5, [1])]
        nextId := 6 } 1
      { taskID := 5, probeID := 1, line := "l", isEnd := false, error := "" } 9
      { probes := [], tasks := [] }
      { taskID := 5, probeID := 1, line := "l", isError := false } 9
      2 { id := 2, sendCh := [] } (by decide) (by decide) |>.2.2.2⟩

/-- Claim C5: in the hub variant, CreateTask enqueues exactly one
task-assignment message on the channel of each requested probe that is
registered at dispatch time (the new message is appended at the tail of its
queue, given room), performs no enqueue at all for identities that are not
targeted or not registered (an unregistered target stays absent — nothing
was created for it), and surfaces no error to any client: the client map is
completely untouched.  With K distinct requested identities of which M are
registered, this is exactly M assignment enqueues and zero for the K minus M
offline identities, which are skipped silently. -/
theorem c5_dispatch_exactly_online_targets
    (h : HubM.Hub) (cid : Nat) (p : HubM.TaskCreatePayload) (pid : Nat)
    (hnd : p.probeIDs.Nodup) :
    (∀ pc : HubM.ProbeConnection, pid ∈ p.probeIDs → mget pid h.probes = some pc →
      pc.sendCh.length < 256 →
      mget pid (HubM.CreateTask h cid p).1.probes =
        some { pc with sendCh := pc.sendCh ++ [HubM.taskMsg h.nextId p] }) ∧
    (pid ∉ p.probeIDs →
      mget pid (HubM.CreateTask h cid p).1.probes = mget pid h.probes) ∧
    (mget pid h.probes = none →
      mget pid (HubM.CreateTask h cid p).1.probes = none) ∧
    (HubM.CreateTask h cid p).1.clients = h.clients := by
  have hprobes : (HubM.CreateTask h cid p).1.probes =
      HubM.sendToProbes (HubM.taskMsg h.nextId p) h.probes p.probeIDs := rfl
  refine ⟨?_, ?_, ?_, rfl⟩
  · intro pc hmem hreg hlen
    rw [hprobes,
      sendToProbes_mem (HubM.taskMsg h.nextId p) p.probeIDs h.probes pid pc hnd hmem hreg]
    unfold trySend
    rw [if_pos hlen]
  · intro hnot
    rw [hprobes]
    exact sendToProbes_not_mem (HubM.taskMsg h.nextId p) p.probeIDs h.probes pid hnot
  · intro hnone
    rw [hprobes]
    exact sendToProbes_none (HubM.taskMsg h.nextId p) p.probeIDs h.probes pid hnone

/-- Witness for claim C5: a concrete hub with only probe 1 online and a
request targeting probes 1 and 3: probe 1 gets exactly the one assignment
appended, identity 3 stays unregistered with nothing delivered, and the
client map is untouched. -/
theorem c5_dispatch_exactly_online_targets_witness :
    mget 1 ((HubM.CreateTask
      { probes := [(1, { id := 1
                         info := { id := 1, name := "p", location := "loc", pstatus := "online", lastSeen := 0 }
                         sendCh := [] })]
        clients := [(2, { id := 2, sendCh := [] })]
        taskToClient := [], taskToProbes := [], nextId := 40 } 2
      { probeIDs := [1, 3], ptype := "ping", target := "x", options := "" }).1).probes =
      some { id := 1
             info := { id := 1, name := "p", location := "loc", pstatus := "online", lastSeen := 0 }
             sendCh := [HubM.Msg.task 40 "ping" "x" ""] } ∧
    mget 3 ((HubM.CreateTask
      { probes := [(1, { id := 1
                         info := { id := 1, name := "p", location := "loc", pstatus := "online", lastSeen := 0 }
                         sendCh := [] })]
        clients := [(2, { id := 2, sendCh := [] })]
        taskToClient := [], taskToProbes := [], nextId := 40 } 2
      { probeIDs := [1, 3], ptype := "ping", target := "x", options := "" }).1).probes = none ∧
    ((HubM.CreateTask
      { probes := [(1, { id := 1
                         info := { id := 1, name := "p", location := "loc", pstatus := "online", lastSeen := 0 }
                         sendCh := [] })]
        clients := [(2, { id := 2, sendCh := [] })]
        taskToClient := [], taskToProbes := [], nextId := 40 } 2
      { probeIDs := [1, 3], ptype := "ping", target := "x", options := "" }).1).clients =
      [(2, { id := 2, sendCh := [] })] :=
  ⟨(c5_dispatch_exactly_online_targets
      { probes := [(1, { id := 1
                         info := { id := 1, name := "p", location := "loc", pstatus := "online", lastSeen := 0 }
                         sendCh := [] })]
        clients := [(2, { id := 2, sendCh := [] })]
        taskToClient := [], taskToProbes := [], nextId := 40 } 2
      { probeIDs := [1, 3], ptype := "ping", target := "x", options := "" } 1 (by decide)).1
      { id := 1
        info := { id := 1, name := "p", location := "loc", pstatus := "online", lastSeen := 0 }
        sendCh := [] }
      (by decide) (by decide) (by decide),
   (c5_dispatch_exactly_online_targets
      { probes := [(1, { id := 1
                         info := { id := 1, name := "p", location := "loc", pstatus := "online", lastSeen := 0 }
                         sendCh := [] })]
        clients := [(2, { id := 2, sendCh := [] })]
        taskToClient := [], taskToProbes := [], nextId := 40 } 2
      { probeIDs := [1, 3], ptype := "ping", target := "x", options := "" } 3 (by decide)).2.2.1
      (by decide),
   (c5_dispatch_exactly_online_targets
      { probes := [(1, { id := 1
                         info := { id := 1, name := "p", location := "loc", pstatus := "online", lastSeen := 0 }
                         sendCh := [] })]
        clients := [(2, { id := 2, sendCh := [] })]
        taskToClient := [], taskToProbes := [], nextId := 40 } 2
      { probeIDs := [1, 3], ptype := "ping", target := "x", options := "" } 1 (by decide)).2.2.2⟩

theorem terminalCount_append (a b : List ProbeC.ResultMsg) :
    ProbeC.terminalCount (a ++ b) = ProbeC.terminalCount a + ProbeC.terminalCount b := by
  simp [ProbeC.terminalCount, List.filter_append]

theorem terminalCount_lines (tid : Nat) (lines : List String) :
    ProbeC.terminalCount
      (lines.map (fun l => { taskID := tid, line := l, isEnd := false, error := "" })) = 0 := by
  simp [ProbeC.terminalCount]

theorem completeCount_append (a b : List ProbeS.PEvent) :
    ProbeS.completeCount (a ++ b) = ProbeS.completeCount a + ProbeS.completeCount b := by
  simp [ProbeS.completeCount, List.filter_append]

theorem completeCount_lines (tid : Nat) (isErr : Bool) (lines : List String) :
    ProbeS.completeCount (lines.map (fun l => ProbeS.PEvent.output tid l isErr)) = 0 := by
  simp [ProbeS.completeCount]

theorem terminalCount_end_singleton (tid : Nat) (e : String) :
    ProbeC.terminalCount [{ taskID := tid, line := "", isEnd := true, error := e }] = 1 := rfl

theorem completeCount_complete_singleton (tid : Nat) (c : Int) :
    ProbeS.completeCount [ProbeS.PEvent.complete tid c] = 1 := rfl

theorem probeC_executeTask_cases (tid : Nat) (pt tg op : String) (env : ProbeC.ExecEnv) :
    ProbeC.terminalCount (ProbeC.executeTask tid pt tg op env).2 = 1 ∧
    ((ProbeC.executeTask tid pt tg op env).1 = false →
      ∃ e, (ProbeC.executeTask tid pt tg op env).2 =
        [{ taskID := tid, line := "", isEnd := true, error := e }]) ∧
    ((ProbeC.buildCmd pt tg op = none ∨ env.stdoutPipeErr.isSome = true ∨
      env.stderrPipeErr.isSome = true ∨ env.startErr.isSome = true) →
      (ProbeC.executeTask tid pt tg op env).1 = false) := by
  cases hb : ProbeC.buildCmd pt tg op with
  | none =>
    refine ⟨by simp [ProbeC.executeTask, hb, ProbeC.terminalCount], ?_, ?_⟩
    · intro _
      exact ⟨"Unknown task type: " ++ pt, by simp [ProbeC.executeTask, hb]⟩
    · intro _
      simp [ProbeC.executeTask, hb]
  | some cmd =>
    cases hs1 : env.stdoutPipeErr with
    | some e1 =>
      refine ⟨by simp [ProbeC.executeTask, hb, hs1, ProbeC.terminalCount], ?_, ?_⟩
      · intro _
        exact ⟨e1, by simp [ProbeC.executeTask, hb, hs1]⟩
      · intro _
        simp [ProbeC.executeTask, hb, hs1]
    | none =>
      cases hs2 : env.stderrPipeErr with
      | some e2 =>
        refine ⟨by simp [ProbeC.executeTask, hb, hs1, hs2, ProbeC.terminalCount], ?_, ?_⟩
        · intro _
          exact ⟨e2, by simp [ProbeC.executeTask, hb, hs1, hs2]⟩
        · intro _
          simp [ProbeC.executeTask, hb, hs1, hs2]
      | none =>
        cases hs3 : env.startErr with
        | some e3 =>
          refine ⟨by simp [ProbeC.executeTask, hb, hs1, hs2, hs3, ProbeC.terminalCount], ?_, ?_⟩
          · intro _
            exact ⟨e3, by simp [ProbeC.executeTask, hb, hs1, hs2, hs3]⟩
          · intro _
            simp [ProbeC.executeTask, hb, hs1, hs2, hs3]
        | none =>
          have hrun : (ProbeC.executeTask tid pt tg op env).1 = true := by
            simp [ProbeC.executeTask, hb, hs1, hs2, hs3]
          refine ⟨?_, ?_, ?_⟩
          · cases hw : env.waitErr with
            | some e4 =>
              simp [ProbeC.executeTask, hb, hs1, hs2, hs3, hw, terminalCount_append,
                terminalCount_lines, terminalCount_end_singleton]
            | none =>
              simp [ProbeC.executeTask, hb, hs1, hs2, hs3, hw, terminalCount_append,
                terminalCount_lines, terminalCount_end_singleton]
          · intro hfalse
            rw [hrun] at hfalse
            cases hfalse
          · intro hdisj
            rcases hdisj with hd | hd | hd | hd <;> simp at hd

theorem probeS_executeTask_cases (tid : Nat) (tool tg : String) (env : ProbeS.ExecEnv) :
    ProbeS.completeCount (ProbeS.executeTask tid tool tg env).2 = 1 ∧
    ((ProbeS.executeTask tid tool tg env).1 = true →
      ProbeS.PEvent.complete tid (ProbeS.exitCodeOf env.wait) ∈
        (ProbeS.executeTask tid tool tg env).2) ∧
    ((ProbeS.executeTask tid tool tg env).1 = false →
      ProbeS.PEvent.complete tid 1 ∈ (ProbeS.executeTask tid tool tg env).2 ∨
      ProbeS.PEvent.complete tid 127 ∈ (ProbeS.executeTask tid tool tg env).2) ∧
    ((ProbeS.buildCmd tool tg = none ∨ env.lookPathErr = true ∨ env.stdoutPipeErr.isSome = true ∨
      env.stderrPipeErr.isSome = true ∨ env.startErr.isSome = true) →
      (ProbeS.executeTask tid tool tg env).1 = false) := by
  cases hb : ProbeS.buildCmd tool tg with
  | none =>
    refine ⟨by simp [ProbeS.executeTask, hb, ProbeS.completeCount], ?_, ?_, ?_⟩
    · intro hfalse
      simp [ProbeS.executeTask, hb] at hfalse
    · intro _
      left
      simp [ProbeS.executeTask, hb]
    · intro _
      simp [ProbeS.executeTask, hb]
  | some cmd =>
    cases hl : env.lookPathErr with
    | true =>
      refine ⟨by simp [ProbeS.executeTask, hb, hl, ProbeS.completeCount], ?_, ?_, ?_⟩
      · intro hfalse
        simp [ProbeS.executeTask, hb, hl] at hfalse
      · intro _
        right
        simp [ProbeS.executeTask, hb, hl]
      · intro _
        simp [ProbeS.executeTask, hb, hl]
    | false =>
      cases hs1 : env.stdoutPipeErr with
      | some e1 =>
        refine ⟨by simp [ProbeS.executeTask, hb, hl, hs1, ProbeS.completeCount], ?_, ?_, ?_⟩
        · intro hfalse
          simp [ProbeS.executeTask, hb, hl, hs1] at hfalse
        · intro _
          left
          simp [ProbeS.executeTask, hb, hl, hs1]
        · intro _
          simp [ProbeS.executeTask, hb, hl, hs1]
      | none =>
        cases hs2 : env.stderrPipeErr with
        | some e2 =>
          refine ⟨by simp [ProbeS.executeTask, hb, hl, hs1, hs2, ProbeS.completeCount], ?_, ?_, ?_⟩
          · intro hfalse
            simp [ProbeS.executeTask, hb, hl, hs1, hs2] at hfalse
          · intro _
            left
            simp [ProbeS.executeTask, hb, hl, hs1, hs2]
          · intro _
            simp [ProbeS.executeTask, hb, hl, hs1, hs2]
        | none =>
          cases hs3 : env.startErr with
          | some e3 =>
            refine ⟨by simp [ProbeS.executeTask, hb, hl, hs1, hs2, hs3, ProbeS.completeCount],
              ?_, ?_, ?_⟩
            · intro hfalse
              simp [ProbeS.executeTask, hb, hl, hs1, hs2, hs3] at hfalse
            · intro _
              left
              simp [ProbeS.executeTask, hb, hl, hs1, hs2, hs3]
            · intro _
              simp [ProbeS.executeTask, hb, hl, hs1, hs2, hs3]
          | none =>
            have hrun : (ProbeS.executeTask tid tool tg env).1 = true := by
              simp [ProbeS.executeTask, hb, hl, hs1, hs2, hs3]
            refine ⟨?_, ?_, ?_, ?_⟩
            · simp [ProbeS.executeTask, hb, hl, hs1, hs2, hs3, completeCount_append,
                completeCount_lines, completeCount_complete_singleton]
            · intro _
              simp [ProbeS.executeTask, hb, hl, hs1, hs2, hs3]
            · intro hfalse
              rw [hrun] at hfalse
              cases hfalse
            · intro hdisj
              rcases hdisj with hd | hd | hd | hd | hd <;> simp at hd

/-- Claim C7: both probe-side executors emit exactly one terminal signal per
accepted assignment.  For the ProbeClient agent the terminal is the single
isEnd result: every pre-start failure (unknown task type, pipe setup, start)
yields exactly that one terminal failure message without starting the
process, and a started process yields exactly one terminal after the line
results.  For the standalone Probe agent the terminal is the single
task_complete event: pre-start failures (unknown tool, missing executable,
pipe setup, start) do not start the process and complete with the sentinel
code 1 or 127, and a started process completes exactly once with the exit
code computed from the wait outcome. -/
theorem c7_exactly_one_terminal
    (tid : Nat) (pt tg op : String) (cenv : ProbeC.ExecEnv)
    (tool tg2 : String) (senv : ProbeS.ExecEnv) :
    ProbeC.terminalCount (ProbeC.executeTask tid pt tg op cenv).2 = 1 ∧
    ProbeS.completeCount (ProbeS.executeTask tid tool tg2 senv).2 = 1 ∧
    ((ProbeC.executeTask tid pt tg op cenv).1 = false →
      ∃ e, (ProbeC.executeTask tid pt tg op cenv).2 =
        [{ taskID := tid, line := "", isEnd := true, error := e }]) ∧
    ((ProbeC.buildCmd pt tg op = none ∨ cenv.stdoutPipeErr.isSome = true ∨
      cenv.stderrPipeErr.isSome = true ∨ cenv.startErr.isSome = true) →
      (ProbeC.executeTask tid pt tg op cenv).1 = false) ∧
    ((ProbeS.executeTask tid tool tg2 senv).1 = true →
      ProbeS.PEvent.complete tid (ProbeS.exitCodeOf senv.wait) ∈
        (ProbeS.executeTask tid tool tg2 senv).2) ∧
    ((ProbeS.executeTask tid tool tg2 senv).1 = false →
      ProbeS.PEvent.complete tid 1 ∈ (ProbeS.executeTask tid tool tg2 senv).2 ∨
      ProbeS.PEvent.complete tid 127 ∈ (ProbeS.executeTask tid tool tg2 senv).2) ∧
    ((ProbeS.buildCmd tool tg2 = none ∨ senv.lookPathErr = true ∨
      senv.stdoutPipeErr.isSome = true ∨ senv.stderrPipeErr.isSome = true ∨
      senv.startErr.isSome = true) →
      (ProbeS.executeTask tid tool tg2 senv).1 = false) :=
  ⟨(probeC_executeTask_cases tid pt tg op cenv).1,
   (probeS_executeTask_cases tid tool tg2 senv).1,
   (probeC_executeTask_cases tid pt tg op cenv).2.1,
   (probeC_executeTask_cases tid pt tg op cenv).2.2,
   (probeS_executeTask_cases tid tool tg2 senv).2.1,
   (probeS_executeTask_cases tid tool tg2 senv).2.2.1,
   (probeS_executeTask_cases tid tool tg2 senv).2.2.2⟩

/-- Witness for claim C7: a concrete successful ping run on each agent emits
exactly one terminal signal, and a concrete unknown tool on the standalone
agent short-circuits without a start and completes with a sentinel code. -/
theorem c7_exactly_one_terminal_witness :
    ProbeC.terminalCount (ProbeC.executeTask 1 "ping" "8.8.8.8" ""
      { stdoutPipeErr := none, stderrPipeErr := none, startErr := none, waitErr := none,
        stdoutLines := ["64 bytes", "64 bytes"], stderrLines := [] }).2 = 1 ∧
    ProbeS.completeCount (ProbeS.executeTask 1 "ping" "8.8.8.8"
      { lookPathErr := false, stdoutPipeErr := none, stderrPipeErr := none, startErr := none,
        wait := ProbeS.WaitResult.ok, stdoutLines := ["64 bytes"], stderrLines := [] }).2 = 1 ∧
    (ProbeS.executeTask 1 "dns" "8.8.8.8"
      { lookPathErr := false, stdoutPipeErr := none, stderrPipeErr := none, startErr := none,
        wait := ProbeS.WaitResult.ok, stdoutLines := [], stderrLines := [] }).1 = false :=
  ⟨(c7_exactly_one_terminal 1 "ping" "8.8.8.8" ""
      { stdoutPipeErr := none, stderrPipeErr := none, startErr := none, waitErr := none,
        stdoutLines := ["64 bytes", "64 bytes"], stderrLines := [] }
      "ping" "8.8.8.8"
      { lookPathErr := false, stdoutPipeErr := none, stderrPipeErr := none, startErr := none,
        wait := ProbeS.WaitResult.ok, stdoutLines := ["64 bytes"], stderrLines := [] }).1,
   (c7_exactly_one_terminal 1 "ping" "8.8.8.8" ""
      { stdoutPipeErr := none, stderrPipeErr := none, startErr := none, waitErr := none,
        stdoutLines := ["64 bytes", "64 bytes"], stderrLines := [] }
      "ping" "8.8.8.8"
      { lookPathErr := false, stdoutPipeErr := none, stderrPipeErr := none, startErr := none,
        wait := ProbeS.WaitResult.ok, stdoutLines := ["64 bytes"], stderrLines := [] }).2.1,
   (c7_exactly_one_terminal 1 "ping" "8.8.8.8" ""
      { stdoutPipeErr := none, stderrPipeErr := none, startErr := none, waitErr := none,
        stdoutLines := ["64 bytes", "64 bytes"], stderrLines := [] }
      "dns" "8.8.8.8"
      { lookPathErr := false, stdoutPipeErr := none, stderrPipeErr := none, startErr := none,
        wait := ProbeS.WaitResult.ok, stdoutLines := [], stderrLines := [] }).2.2.2.2.2.2
     (Or.inl (by decide))⟩

namespace HubM

/-- One probe-registry operation of the hub variant. -/
inductive RegOp where
  | reg (name location : String)
  | unreg (id : Nat)
  deriving DecidableEq, Repr

/-- The hub with no connections and no tasks. -/
def emptyHub : Hub :=
  { probes := [], clients := [], taskToClient := [], taskToProbes := [], nextId := 0 }

/-- Run a sequence of registry operations (registration time abstracted to
0), collecting in order the identities handed out by RegisterProbe. -/
def applyOpsTrace : Hub → List RegOp → Hub × List Nat
  | h, [] => (h, [])
  | h, RegOp.reg n l :: rest =>
    let r := RegisterProbe h n l 0
    let t := applyOpsTrace r.1 rest
    (t.1, r.2 :: t.2)
  | h, RegOp.unreg i :: rest => applyOpsTrace (UnregisterProbe h i) rest

/-- Specification-side ledger for the refinement of claim C8, following the
spec sentence that Registry.List returns exactly the probes still
registered: the same operation walk carried out on a bare identity set — a
register adds the next fresh identity, an unregister removes that identity. -/
def specAlive : Nat → List Nat → List RegOp → List Nat
  | _, alive, [] => alive
  | n, alive, RegOp.reg _ _ :: rest => specAlive (n + 1) (alive ++ [n]) rest
  | n, alive, RegOp.unreg i :: rest => specAlive n (alive.filter (fun x => x ≠ i)) rest

/-- Registry coherence: the probe-map keys are duplicate-free, agree with
the ledger, lie below the fresh-id counter, and every stored record carries
its key as identity. -/
def RegInv (h : Hub) (alive : List Nat) : Prop :=
  (mkeys h.probes).Nodup ∧
  (∀ i, i ∈ mkeys h.probes ↔ i ∈ alive) ∧
  (∀ i ∈ alive, i < h.nextId) ∧
  (∀ e ∈ h.probes, (Prod.snd e).info.id = Prod.fst e)

end HubM

theorem registerProbe_probes (h : HubM.Hub) (n l : String) (now : Nat) :
    (HubM.RegisterProbe h n l now).1.probes = mput h.nextId
      { id := h.nextId
        info := { id := h.nextId, name := n, location := l, pstatus := "online", lastSeen := now }
        sendCh := [] } h.probes := rfl

theorem registerProbe_nextId (h : HubM.Hub) (n l : String) (now : Nat) :
    (HubM.RegisterProbe h n l now).1.nextId = h.nextId + 1 := rfl

theorem unregisterProbe_nextId (h : HubM.Hub) (i : Nat) :
    (HubM.UnregisterProbe h i).nextId = h.nextId := by
  cases hg : mget i h.probes <;> simp [HubM.UnregisterProbe, hg, HubM.broadcastProbeList]

theorem regInv_register (h : HubM.Hub) (alive : List Nat) (n l : String)
    (hinv : HubM.RegInv h alive) :
    HubM.RegInv (HubM.RegisterProbe h n l 0).1 (alive ++ [h.nextId]) := by
  obtain ⟨hnd, hmem, hlt, hid⟩ := hinv
  refine ⟨?_, ?_, ?_, ?_⟩
  · rw [registerProbe_probes]
    exact nodup_mkeys_mput _ _ _ hnd
  · intro i
    rw [registerProbe_probes, mem_mkeys_mput]
    constructor
    · rintro (rfl | ⟨hi, _⟩)
      · exact List.mem_append.mpr (Or.inr (by simp))
      · exact List.mem_append.mpr (Or.inl ((hmem i).mp hi))
    · intro hi
      rcases List.mem_append.mp hi with hi | hi
      · by_cases hieq : i = h.nextId
        · exact Or.inl hieq
        · exact Or.inr ⟨(hmem i).mpr hi, hieq⟩
      · exact Or.inl (by simpa using hi)
  · intro i hi
    rw [registerProbe_nextId]
    rcases List.mem_append.mp hi with hi | hi
    · exact Nat.lt_succ_of_lt (hlt i hi)
    · have hieq : i = h.nextId := by simpa using hi
      rw [hieq]
      exact Nat.lt_succ_self _
  · intro e he
    rw [registerProbe_probes] at he
    rcases List.mem_cons.mp he with he | he
    · rw [he]
    · exact hid e (mem_mdel _ _ _ he)

theorem regInv_unregister (h : HubM.Hub) (alive : List Nat) (i : Nat)
    (hinv : HubM.RegInv h alive) :
    HubM.RegInv (HubM.UnregisterProbe h i) (alive.filter (fun x => x ≠ i)) := by
  obtain ⟨hnd, hmem, hlt, hid⟩ := hinv
  cases hg : mget i h.probes with
  | none =>
    have hni : i ∉ alive := by
      intro hia
      have hik := (hmem i).mpr hia
      rw [mget_eq_none_iff] at hg
      exact hg hik
    rw [show HubM.UnregisterProbe h i = h from by simp [HubM.UnregisterProbe, hg]]
    rw [filter_ne_of_not_mem i alive hni]
    exact ⟨hnd, hmem, hlt, hid⟩
  | some pc =>
    have hprobes : (HubM.UnregisterProbe h i).probes = mdel i h.probes := by
      simp [HubM.UnregisterProbe, hg, HubM.broadcastProbeList]
    refine ⟨?_, ?_, ?_, ?_⟩
    · rw [hprobes]
      exact nodup_mkeys_mdel _ _ hnd
    · intro j
      rw [hprobes, mem_mkeys_mdel, mem_filter_ne]
      exact and_congr_left (fun _ => hmem j)
    · intro j hj
      rw [unregisterProbe_nextId]
      exact hlt j ((mem_filter_ne j i alive).mp hj).1
    · intro e he
      rw [hprobes] at he
      exact hid e (mem_mdel _ _ _ he)

theorem applyOpsTrace_inv : ∀ (ops : List HubM.RegOp) (h : HubM.Hub) (alive : List Nat),
    HubM.RegInv h alive →
    HubM.RegInv (HubM.applyOpsTrace h ops).1 (HubM.specAlive h.nextId alive ops) ∧
    (∀ i ∈ (HubM.applyOpsTrace h ops).2, h.nextId ≤ i) ∧
    ((HubM.applyOpsTrace h ops).2).Nodup := by
  intro ops
  induction ops with
  | nil =>
    intro h alive hinv
    refine ⟨hinv, ?_, List.nodup_nil⟩
    intro i hi
    cases hi
  | cons op rest ih =>
    intro h alive hinv
    cases op with
    | reg n l =>
      have hstep := ih (HubM.RegisterProbe h n l 0).1 (alive ++ [h.nextId])
        (regInv_register h alive n l hinv)
      rw [registerProbe_nextId] at hstep
      obtain ⟨ha, hb, hc⟩ := hstep
      refine ⟨ha, ?_, ?_⟩
      · intro i hi
        rcases List.mem_cons.mp hi with hi | hi
        · rw [hi]
          exact Nat.le_refl _
        · exact Nat.le_of_succ_le (hb i hi)
      · refine List.nodup_cons.mpr ⟨?_, hc⟩
        intro hmem
        exact absurd (hb h.nextId hmem) (Nat.not_succ_le_self h.nextId)
    | unreg i =>
      have hstep := ih (HubM.UnregisterProbe h i) (alive.filter (fun x => x ≠ i))
        (regInv_unregister h alive i hinv)
      rw [unregisterProbe_nextId] at hstep
      exact hstep

theorem infos_ids (l : List (Nat × HubM.ProbeConnection))
    (hid : ∀ e ∈ l, (Prod.snd e).info.id = Prod.fst e) :
    (l.map (fun p => p.2.info)).map HubM.ProbeInfo.id = mkeys l := by
  induction l with
  | nil => rfl
  | cons x rest ih =>
    have hx := hid x (by simp)
    simp only [List.map_cons, mkeys] at *
    rw [hx]
    rw [ih (fun e he => hid e (List.mem_cons_of_mem x he))]

/-- Claim C8, amended: the hub-variant Registry satisfies the claim.  For
every finite sequence of register and unregister operations started from the
empty hub, GetProbeList afterwards carries duplicate-free identities that
coincide exactly with the spec-side ledger of probes still registered
(register adds the freshly assigned identity, unregister removes exactly
that identity), and the full list of identities ever handed out over the run
is duplicate-free — an identity, once assigned to a session, is never
assigned again, so it is never reused for a different live session.  In the
backend variant, identity is taken from the registration payload and can be
taken over by a second live session (see the counterexample). -/
theorem c8_hub_registry_exact_and_fresh (ops : List HubM.RegOp) :
    ((HubM.GetProbeList (HubM.applyOpsTrace HubM.emptyHub ops).1).map HubM.ProbeInfo.id).Nodup ∧
    (∀ i, i ∈ (HubM.GetProbeList (HubM.applyOpsTrace HubM.emptyHub ops).1).map HubM.ProbeInfo.id ↔
      i ∈ HubM.specAlive 0 [] ops) ∧
    ((HubM.applyOpsTrace HubM.emptyHub ops).2).Nodup := by
  have hbase : HubM.RegInv HubM.emptyHub [] := by
    refine ⟨List.nodup_nil, ?_, ?_, ?_⟩
    · intro i
      simp [HubM.emptyHub, mkeys]
    · intro i hi
      cases hi
    · intro e he
      simp [HubM.emptyHub] at he
  obtain ⟨hinv, htr, hnd⟩ := applyOpsTrace_inv ops HubM.emptyHub [] hbase
  obtain ⟨hknd, hkmem, hklt, hkid⟩ := hinv
  have hids : (HubM.GetProbeList (HubM.applyOpsTrace HubM.emptyHub ops).1).map HubM.ProbeInfo.id
      = mkeys (HubM.applyOpsTrace HubM.emptyHub ops).1.probes :=
    infos_ids _ hkid
  refine ⟨?_, ?_, hnd⟩
  · rw [hids]
    exact hknd
  · intro i
    rw [hids]
    exact hkmem i

/-- Claim C8, counterexample.  In the backend variant a probe chooses its
own identity in the registration payload (probeReader stores the connection
under info.ID).  Starting from an empty server, session 1 registers identity
5; session 2 — a different, still-live session — then registers the same
identity 5 and takes over the binding while session 1 was never
unregistered: the identity is reused for a different live session,
contradicting the claim for every sequence of operations. -/
theorem c8_backend_identity_reuse :
    mget 5 (BackendM.registerProbe ({ probes := [], tasks := [] } : BackendM.Server)
      { connID := 1, id := 5, name := "a" }).probes = some { connID := 1, id := 5, name := "a" } ∧
    mget 5 (BackendM.registerProbe
      (BackendM.registerProbe ({ probes := [], tasks := [] } : BackendM.Server)
        { connID := 1, id := 5, name := "a" })
      { connID := 2, id := 5, name := "b" }).probes = some { connID := 2, id := 5, name := "b" } := by
  decide
